import Mathlib

/-!
Formal model of the CodeTrail submission-sync pipeline.

Strings from the JavaScript source are modelled as `List Char` (`Str`);
`str` converts a Lean string literal.  Asynchronous storage and the GitHub
REST API are modelled as explicit state passing; injected failure flags
stand for non-2xx HTTP responses and network errors.  Git object ids
(SHAs) are opaque identifiers and are modelled as `Nat`s allocated by the
server model.
-/

namespace CodeTrail

set_option maxRecDepth 100000

/-- Strings of the JavaScript program, as lists of characters. -/
abbrev Str := List Char

/-- Convert a Lean string literal to the character-list representation. -/
def str (s : String) : Str := s.data

/-- ASCII lower-casing of one character (the fragment of
`String.prototype.toLowerCase` exercised by the program). -/
def lowerChar (c : Char) : Char :=
  if 'A' ≤ c ∧ c ≤ 'Z' then Char.ofNat (c.toNat + 32) else c

/-- ASCII lower-casing of a string (`s.toLowerCase()`). -/
def lowerStr (s : Str) : Str := s.map lowerChar

/-- Boolean test that `pat` occurs at the front of `s`. -/
def startsWith (pat s : Str) : Bool :=
  match pat, s with
  | [], _ => true
  | _ :: _, [] => false
  | a :: as, b :: bs => a == b && startsWith as bs

/-- Boolean substring test (`s.includes(pat)`). -/
def containsSub (pat s : Str) : Bool :=
  match s with
  | [] => pat.isEmpty
  | _ :: rest => startsWith pat s || containsSub pat rest

/-- Index of the first occurrence of `pat` in `s`
(`s.match(/pat/).index`, `none` when there is no match). -/
def findPat (pat s : Str) : Option Nat :=
  match s with
  | [] => if pat.isEmpty then some 0 else none
  | _ :: rest =>
    if startsWith pat s then some 0
    else (findPat pat rest).map (· + 1)

/-- Boolean test that `pat` occurs at the end of `s` (`-pat$` in a regex). -/
def endsWith (pat s : Str) : Bool := startsWith pat.reverse s.reverse

/-- Number of occurrences (at distinct start positions) of `pat` in `s`. -/
def countOcc (pat s : Str) : Nat :=
  match s with
  | [] => 0
  | _ :: rest => (if startsWith pat s then 1 else 0) + countOcc pat rest

/-- Decimal digit test (`\d` in a regex). -/
def isDigitCh (c : Char) : Bool := '0' ≤ c && c ≤ '9'

/-- Numeric value of a decimal digit string (`parseInt(s, 10)` on an
all-digit string). -/
def parseDigits (s : Str) : Nat :=
  s.foldl (fun acc c => acc * 10 + (c.toNat - '0'.toNat)) 0

/-- Decimal rendering of a natural number. -/
def natStr (n : Nat) : Str := (Nat.repr n).data

-- ====================================================================
-- VersionResolver (`getNextVersion`, src/unnamed/part_001 lines 112-152)
-- ====================================================================

/-- One entry of a GitHub directory listing (`file.name`, `file.type`). -/
structure FileEntry where
  name : Str
  ftype : Str
deriving DecidableEq

/-- `new RegExp(`\\.(${extension})$`, 'i').test(name)`: the file name ends
with a dot and the extension, case-insensitively. -/
def solutionMatches (name extension : Str) : Bool :=
  endsWith ('.' :: lowerStr extension) (lowerStr name)

/-- `name.match(new RegExp(`-v(\\d+)\\.${extension}$`, 'i'))`: the version
number captured from a trailing `-v<digits>.<extension>` suffix, if any.
The greedy `\d+` anchored before `\.ext$` captures exactly the maximal
run of digits preceding the final dot, provided `-v` precedes that run. -/
def versionOf (name extension : Str) : Option Nat :=
  let ln := lowerStr name
  let suffix := '.' :: lowerStr extension
  if endsWith suffix ln then
    let base := ln.take (ln.length - suffix.length)
    let digits := (base.reverse.takeWhile isDigitCh).reverse
    let stem := base.take (base.length - digits.length)
    if digits ≠ [] ∧ endsWith (str "-v") stem then
      some (parseDigits digits)
    else none
  else none

/-- Whether a listing entry participates in the version scan:
`file.type === 'file' && solutionPattern.test(file.name) && file.name !== 'README.md'`. -/
def isSolutionFile (f : FileEntry) (extension : Str) : Bool :=
  f.ftype == str "file" && solutionMatches f.name extension && f.name != str "README.md"

/-- The loop body of `getNextVersion`: accumulate `(maxVersion, hasBaseFile)`. -/
def scanFiles (files : List FileEntry) (extension : Str) : Nat × Bool :=
  files.foldl
    (fun acc f =>
      if isSolutionFile f extension then
        match versionOf f.name extension with
        | some n => (max acc.1 n, acc.2)
        | none => (acc.1, true)
      else acc)
    (0, false)

/-- `getNextVersion(config, folderName, extension)`.  The remote directory
listing is passed explicitly: `none` stands for a non-200 response, a
non-array body, or a thrown network error (all of which return 1). -/
def getNextVersion (listing : Option (List FileEntry)) (extension : Str) : Nat :=
  match listing with
  | none => 1
  | some files =>
    let s := scanFiles files extension
    if s.1 > 0 then s.1 + 1
    else if s.2 then 2
    else 1

/-- The versions of all versioned solution files in a listing (the set the
spec's `max(N)` ranges over). -/
def versionsIn (files : List FileEntry) (extension : Str) : List Nat :=
  files.filterMap (fun f =>
    if isSolutionFile f extension then versionOf f.name extension else none)

/-- Whether a listing entry is an unversioned base solution file. -/
def isBaseFile (f : FileEntry) (extension : Str) : Bool :=
  isSolutionFile f extension && (versionOf f.name extension).isNone

-- ====================================================================
-- Data model: configuration, stats, submissions, queue jobs
-- ====================================================================

/-- `RepositoryConfig` as returned by `getConfig()` (src/utils/storage.js). -/
structure Config where
  username : Str
  repo : Str
  token : Str
  enabled : Bool
deriving DecidableEq

/-- Persisted stats counters (src/utils/storage.js `getStats` default shape). -/
structure Stats where
  total : Nat
  easy : Nat
  medium : Nat
  hard : Nat
  lastUpdated : Option Nat
deriving DecidableEq

/-- `resetStats()` (src/utils/storage.js lines 207-216). -/
def resetStats : Stats := ⟨0, 0, 0, 0, none⟩

/-- `updateStats(difficulty)` (src/background.js lines 412-432): increment
`total`, stamp `lastUpdated`, and increment the counter selected by
`difficulty?.toLowerCase()`; unrecognized difficulties fall through the
switch without touching any per-difficulty counter. -/
def updateStats (stats : Stats) (difficulty : Str) (now : Nat) : Stats :=
  let s := { stats with total := stats.total + 1, lastUpdated := some now }
  let d := lowerStr difficulty
  if d = str "easy" then { s with easy := s.easy + 1 }
  else if d = str "medium" then { s with medium := s.medium + 1 }
  else if d = str "hard" then { s with hard := s.hard + 1 }
  else s

/-- The stats state reached from a reset by a sequence of successful syncs
(difficulty, timestamp). -/
def runStats (events : List (Str × Nat)) : Stats :=
  events.foldl (fun s e => updateStats s e.1 e.2) resetStats

/-- Difficulties that select a per-difficulty counter in `updateStats`. -/
def recognizedDifficulty (d : Str) : Bool :=
  lowerStr d == str "easy" || lowerStr d == str "medium" || lowerStr d == str "hard"

/-- Free-text user references attached to a submission. -/
structure References where
  youtube : Option Str
  notes : Option Str
  approach : Option Str
  additionalRefs : Option Str
  method : Option Str
deriving DecidableEq

/-- The submission record produced by the detection adapter.  Topic tags are
modelled post-normalization as plain strings (the source maps `{name}`
objects to their `name`).  `runtimePercentile`/`memoryPercentile` are
modelled as their rendered `toFixed(2)` strings, since the program only
ever interpolates them into text. -/
structure Submission where
  title : Str
  number : Str
  difficulty : Str
  tags : List Str
  code : Str
  language : Str
  url : Str
  folderName : Str
  readme : Str
  submissionId : Option Str
  runtime : Option Str
  runtimePercentile : Option Str
  memory : Option Str
  memoryPercentile : Option Str
  references : References
  timestamp : Option Nat
deriving DecidableEq

/-- A queued sync job (the fields of the queued object that the queue logic
reads; the remaining submission payload travels along unchanged). -/
structure Job where
  submissionId : Option Str
  folderName : Str
  title : Str
  difficulty : Str
  tabId : Option Nat
  timestamp : Nat
  retryCount : Nat
deriving DecidableEq

/-- Natural key of a queued job: submission id if present, else folder
identifier. -/
def natKey (j : Job) : Str := j.submissionId.getD j.folderName

/-- Natural key of an incoming submission record. -/
def dataNatKey (d : Submission) : Str := d.submissionId.getD d.folderName

/-- One problem's entry in the persisted ProblemIndex. -/
structure IndexEntry where
  folderName : Str
  title : Str
  number : Str
  difficulty : Str
  tags : List Str
  url : Str
deriving DecidableEq

/-- The persisted ProblemIndex: a string-keyed object, modelled as an
insertion-ordered association list (JS object key order). -/
abbrev ProblemIndex := List (Str × IndexEntry)

/-- Lookup in a string-keyed association list (first match). -/
def lookupS {β : Type} (l : List (Str × β)) (k : Str) : Option β :=
  (l.find? (fun p => p.1 == k)).map (fun p => p.2)

/-- Lookup in a `Nat`-keyed association list (first match). -/
def lookupN {β : Type} (l : List (Nat × β)) (k : Nat) : Option β :=
  (l.find? (fun p => p.1 == k)).map (fun p => p.2)

/-- `problemIndex[folderName] = entry`: JS object assignment keeps the
position of an existing key and appends a new key last. -/
def setIndex (index : ProblemIndex) (key : Str) (v : IndexEntry) : ProblemIndex :=
  if index.any (fun e => e.1 == key) then
    index.map (fun e => if e.1 == key then (key, v) else e)
  else index ++ [(key, v)]

-- ====================================================================
-- SubmissionQueue: `handleSubmissionDetected` (src/background.js 254-283)
-- ====================================================================

/-- The persisted storage state that `handleSubmissionDetected` and the
queue processor read and write. -/
structure Storage where
  config : Config
  queue : List Job
  stats : Stats
  problemIndex : ProblemIndex
deriving DecidableEq

/-- The duplicate test of `handleSubmissionDetected`:
`(item.submissionId && item.submissionId === data.submissionId) || item.folderName === data.folderName`.
The first disjunct requires the queued item's id to be truthy (present and
non-empty) and equal to the incoming id. -/
def isDuplicateIn (queue : List Job) (data : Submission) : Bool :=
  queue.any (fun item =>
    (match item.submissionId, data.submissionId with
     | some a, some b => !a.isEmpty && a == b
     | _, _ => false)
    || item.folderName == data.folderName)

/-- The job object pushed onto the queue: the record plus `tabId`,
`timestamp: data.timestamp || Date.now()` (a zero timestamp is falsy) and
`retryCount: 0`. -/
def mkJob (data : Submission) (tabId : Option Nat) (now : Nat) : Job :=
  { submissionId := data.submissionId
    folderName := data.folderName
    title := data.title
    difficulty := data.difficulty
    tabId := tabId
    timestamp := match data.timestamp with
                 | some t => if t ≠ 0 then t else now
                 | none => now
    retryCount := 0 }

/-- `handleSubmissionDetected(data, tabId)`: returns the updated storage and
whether `processSubmissionQueue()` was triggered. -/
def handleSubmissionDetected (st : Storage) (data : Submission) (tabId : Option Nat)
    (now : Nat) : Storage × Bool :=
  if st.config.enabled = false then (st, false)
  else if isDuplicateIn st.queue data then (st, false)
  else ({ st with queue := st.queue ++ [mkJob data tabId now] }, true)

-- ====================================================================
-- QueueProcessor: one pass of `processSubmissionQueue`
-- (src/background.js lines 291-353)
-- ====================================================================

/-- Kinds of user-visible status events (`sendSyncStatus`). -/
inductive StatusKind where
  | syncing
  | success
  | error
deriving DecidableEq

/-- A requested status notification (delivery itself is best-effort). -/
structure StatusEvent where
  kind : StatusKind
  message : Str
deriving DecidableEq

/-- The fatal-error classification of `processSubmissionQueue`:
`error.message.includes('Invalid token') || error.message.includes('not found') || error.message.includes('Bad credentials')`. -/
def isFatal (msg : Str) : Bool :=
  containsSub (str "Invalid token") msg
  || containsSub (str "not found") msg
  || containsSub (str "Bad credentials") msg

/-- Queue-processor state: the persisted queue and stats. -/
structure ProcState where
  queue : List Job
  stats : Stats
deriving DecidableEq

/-- One iteration of the `processSubmissionQueue` loop on a given sync
outcome for the head job (`none` = `handleSyncSubmission` succeeded,
`some msg` = it threw an error with message `msg`).  Returns the updated
state and the status events emitted during the pass. -/
def processOnce (st : ProcState) (syncOutcome : Option Str) (now : Nat) :
    ProcState × List StatusEvent :=
  match st.queue with
  | [] => (st, [])
  | item :: rest =>
    let syncing : StatusEvent :=
      ⟨.syncing, str "Syncing \"" ++ item.title ++ str "\"..."⟩
    match syncOutcome with
    | none =>
      (⟨rest, updateStats st.stats item.difficulty now⟩,
       [syncing, ⟨.success, str "Synced to GitHub"⟩])
    | some msg =>
      if isFatal msg = false ∧ item.retryCount < 3 then
        (⟨{ item with retryCount := item.retryCount + 1 } :: rest, st.stats⟩,
         [syncing, ⟨.error, str "Sync failed: " ++ msg ++ str ". Retrying..."⟩])
      else
        (⟨rest, st.stats⟩,
         [syncing,
          ⟨.error,
           if isFatal msg
           then str "Sync failed: " ++ msg ++ str " (Check Settings)"
           else str "Sync failed permanently: " ++ msg⟩])

/-- The configuration guard of `handleSyncSubmission`
(src/background.js lines 381-386):
`if (!config.token || !config.username || !config.repo) throw new Error('GitHub not configured')`. -/
def configMissing (c : Config) : Bool :=
  c.token.isEmpty || c.username.isEmpty || c.repo.isEmpty

/-- The outcome of `handleSyncSubmission(data)` as observed by the queue
processor: a missing configuration throws `'GitHub not configured'` before
any network access; otherwise the outcome is that of the push itself. -/
def syncSubmissionOutcome (c : Config) (pushOutcome : Option Str) : Option Str :=
  if configMissing c then some (str "GitHub not configured") else pushOutcome

-- ====================================================================
-- RepositoryClient: the Git Data API model and `commitBatch`
-- (src/unnamed/part_001 lines 154-293)
-- ====================================================================

/-- A `{path, content}` file of a batch commit. -/
structure FileSpec where
  path : Str
  content : Str
deriving DecidableEq

/-- A git commit object: its tree id, parent ids and message. -/
structure CommitObj where
  tree : Nat
  parents : List Nat
  message : Str
deriving DecidableEq

/-- A git tree: path → blob id.  New entries are prepended and shadow
older ones, so the association-list lookup realizes the partial-path
overlay of `base_tree` plus the new items. -/
abbrev TreeEntries := List (Str × Nat)

/-- The remote repository state: refs (branch → commit id), and the object
stores.  Object ids (SHAs) are opaque and modelled as `Nat`s allocated
from `nextId`. -/
structure GitServer where
  refs : List (Str × Nat)
  commits : List (Nat × CommitObj)
  trees : List (Nat × TreeEntries)
  blobs : List (Nat × Str)
  nextId : Nat
deriving DecidableEq

/-- Injected failures: each flag makes the corresponding HTTP call return a
non-ok response (`failBlob i` fails the blob creation of the i-th file). -/
structure FailSpec where
  failGetRef : Bool
  failGetCommit : Bool
  failBlob : Nat → Bool
  failCreateTree : Bool
  failCreateCommit : Bool
  failUpdateRef : Bool

/-- `getDefaultBranch(config)` (part_001 lines 74-80): the cached branch,
else `'main'`; performs no network call. -/
def getDefaultBranch (branchCache : Option Str) : Str := branchCache.getD (str "main")

/-- `getLatestCommitSha(config, branch)` (part_001 lines 180-191). -/
def getLatestCommitSha (fail : Bool) (server : GitServer) (branch : Str) : Except Str Nat :=
  if fail then .error (str "Failed to get ref: 500")
  else match lookupS server.refs branch with
       | some sha => .ok sha
       | none => .error (str "Failed to get ref: 404")

/-- `getCommitTreeSha(config, commitSha)` (part_001 lines 193-204). -/
def getCommitTreeSha (fail : Bool) (server : GitServer) (commitSha : Nat) : Except Str Nat :=
  if fail then .error (str "Failed to get commit: 500")
  else match lookupN server.commits commitSha with
       | some c => .ok c.tree
       | none => .error (str "Failed to get commit: 404")

/-- The blob-creation phase of `createTree` (part_001 lines 206-218):
`createBlob` for each file (blobs persist on the server even if a later
step fails), collecting `{path, sha}` tree items in file order. -/
def createBlobs (fs : FailSpec) (server : GitServer) (files : List FileSpec) (i : Nat) :
    GitServer × Except Str TreeEntries :=
  match files with
  | [] => (server, .ok [])
  | f :: rest =>
    if fs.failBlob i then (server, .error (str "Failed to create blob: 500"))
    else
      let sha := server.nextId
      let server2 := { server with
        blobs := (sha, f.content) :: server.blobs
        nextId := server.nextId + 1 }
      match createBlobs fs server2 rest (i + 1) with
      | (s3, .ok items) => (s3, .ok ((f.path, sha) :: items))
      | (s3, .error e) => (s3, .error e)

/-- `createTree(config, baseTreeSha, files)` (part_001 lines 206-239):
create all blobs, then one tree referencing `base_tree` plus the new
items at their paths (an unknown base tree is the server-side 422). -/
def createTree (fs : FailSpec) (server : GitServer) (baseTreeSha : Nat)
    (files : List FileSpec) : GitServer × Except Str Nat :=
  match createBlobs fs server files 0 with
  | (s2, .error e) => (s2, .error e)
  | (s2, .ok items) =>
    if fs.failCreateTree then (s2, .error (str "Failed to create tree: 500"))
    else match lookupN s2.trees baseTreeSha with
      | none => (s2, .error (str "Failed to create tree: 422"))
      | some base =>
        let entries := items.foldl (fun t pr => pr :: t) base
        let tid := s2.nextId
        ({ s2 with trees := (tid, entries) :: s2.trees, nextId := s2.nextId + 1 }, .ok tid)

/-- `createCommit(config, message, treeSha, parentSha)` (part_001 241-262). -/
def createCommit (fail : Bool) (server : GitServer) (message : Str)
    (treeSha parentSha : Nat) : GitServer × Except Str Nat :=
  if fail then (server, .error (str "Failed to create commit: 500"))
  else
    let cid := server.nextId
    ({ server with
        commits := (cid, ⟨treeSha, [parentSha], message⟩) :: server.commits
        nextId := server.nextId + 1 },
     .ok cid)

/-- `updateRef(config, branch, newCommitSha)` (part_001 lines 264-280): the
only call that moves the branch ref (a PATCH of a missing ref is the
server-side 422). -/
def updateRef (fail : Bool) (server : GitServer) (branch : Str) (newCommitSha : Nat) :
    GitServer × Except Str Unit :=
  if fail then (server, .error (str "Failed to update ref: 500"))
  else match lookupS server.refs branch with
    | none => (server, .error (str "Failed to update ref: 422"))
    | some _ => ({ server with refs := (branch, newCommitSha) :: server.refs }, .ok ())

/-- `commitBatch(config, files, message)` (part_001 lines 285-293): the
atomic multi-file commit primitive, branch resolution → head read → base
tree read → blobs+tree → commit → ref update, aborting on the first
failing step. -/
def commitBatch (fs : FailSpec) (branchCache : Option Str) (server : GitServer)
    (files : List FileSpec) (message : Str) : GitServer × Except Str Nat :=
  let branch := getDefaultBranch branchCache
  match getLatestCommitSha fs.failGetRef server branch with
  | .error e => (server, .error e)
  | .ok latestCommitSha =>
    match getCommitTreeSha fs.failGetCommit server latestCommitSha with
    | .error e => (server, .error e)
    | .ok baseTreeSha =>
      match createTree fs server baseTreeSha files with
      | (s2, .error e) => (s2, .error e)
      | (s2, .ok newTreeSha) =>
        match createCommit fs.failCreateCommit s2 message newTreeSha latestCommitSha with
        | (s3, .error e) => (s3, .error e)
        | (s3, .ok newCommitSha) =>
          match updateRef fs.failUpdateRef s3 branch newCommitSha with
          | (s4, .error e) => (s4, .error e)
          | (s4, .ok _) => (s4, .ok newCommitSha)

/-- The blob id a tree assigns to a path. -/
def treeEntryAt (server : GitServer) (treeSha : Nat) (path : Str) : Option Nat :=
  (lookupN server.trees treeSha).bind (fun t => lookupS t path)

/-- The file content a tree holds at a path. -/
def contentAt (server : GitServer) (treeSha : Nat) (path : Str) : Option Str :=
  (treeEntryAt server treeSha path).bind (fun b => lookupN server.blobs b)

-- ====================================================================
-- DocumentGenerator (src/unnamed/part_001 lines 391-497)
-- ====================================================================

/-- The `LANGUAGES` table of src/utils/constants.js, in insertion order. -/
def LANGUAGES : List (Str × Str) :=
  [(str "C", str ".c"), (str "C++", str ".cpp"), (str "C#", str ".cs"),
   (str "Dart", str ".dart"), (str "Elixir", str ".ex"), (str "Erlang", str ".erl"),
   (str "Go", str ".go"), (str "Java", str ".java"), (str "JavaScript", str ".js"),
   (str "Javascript", str ".js"), (str "Kotlin", str ".kt"), (str "MySQL", str ".sql"),
   (str "MS SQL Server", str ".sql"), (str "Oracle", str ".sql"), (str "Pandas", str ".py"),
   (str "PHP", str ".php"), (str "PostgreSQL", str ".sql"), (str "Python", str ".py"),
   (str "Python3", str ".py"), (str "Racket", str ".rkt"), (str "Ruby", str ".rb"),
   (str "Rust", str ".rs"), (str "Scala", str ".scala"), (str "Swift", str ".swift"),
   (str "TypeScript", str ".ts"), (str "Typescript", str ".ts"), (str "R", str ".r"),
   (str "Bash", str ".sh"), (str "Shell", str ".sh")]

/-- Strip surrounding spaces (`String.prototype.trim` on ASCII input). -/
def trimStr (s : Str) : Str :=
  ((s.dropWhile (fun c => c == ' ')).reverse.dropWhile (fun c => c == ' ')).reverse

/-- `ext.replace('.', '')`: remove the first dot. -/
def removeFirstDot : Str → Str
  | [] => []
  | c :: rest => if c = '.' then rest else c :: removeFirstDot rest

/-- `getFileExtension(language)` (part_001 lines 391-397): first `LANGUAGES`
entry whose name lower-cases to the lower-cased, trimmed language, with
the leading dot removed; `'txt'` otherwise. -/
def getFileExtension (language : Str) : Str :=
  let langLower := trimStr (lowerStr language)
  match LANGUAGES.find? (fun e => lowerStr e.1 == langLower) with
  | some e => removeFirstDot e.2
  | none => str "txt"

/-- Join strings with a separator (`Array.prototype.join`). -/
def joinSep (sep : Str) : List Str → Str
  | [] => []
  | [x] => x
  | x :: y :: rest => x ++ sep ++ joinSep sep (y :: rest)

/-- `generateCommitMessage(submission, version, components)` (part_001
lines 399-414); only the submission fields are read. -/
def generateCommitMessage (sub : Submission) : Str :=
  let stats :=
    (match sub.runtime, sub.runtimePercentile with
     | some r, some p => [str "Time: " ++ r ++ str " (" ++ p ++ str "%)"]
     | _, _ => [])
    ++
    (match sub.memory, sub.memoryPercentile with
     | some m, some p => [str "Space: " ++ m ++ str " (" ++ p ++ str "%)"]
     | _, _ => [])
  let statsStr := if stats.isEmpty then str "Solved" else joinSep (str " | ") stats
  statsStr ++ str " - " ++ sub.title ++ str " [" ++ sub.difficulty ++ str "]"
    ++ str " - CodeTrail"

/-- The attribution-footer marker regex `/\n\*Auto-synced by \[CodeTrail\]/`
as a literal pattern. -/
def footerMarker : Str := str "\n*Auto-synced by [CodeTrail]"

/-- The fresh footer appended when no marker is found. -/
def footerFull : Str :=
  str "\n*Auto-synced by [CodeTrail](https://github.com/ThivakarSP/CodeTrail)*"

/-- The heading string of a version section. -/
def versionHeading : Str := str "## Version"

/-- The `versionSection` text built by `appendVersionToReadme` (part_001
lines 416-444).  `date` is the rendered `new Date().toLocaleDateString()`,
passed explicitly since the clock is an input. -/
def versionSection (sub : Submission) (version : Nat) (date : Str) : Str :=
  let s1 := str "\n---\n\n## Version " ++ natStr version ++ str "\n\n**Language**: "
    ++ (if sub.language.isEmpty then str "Unknown" else sub.language) ++ str "\n\n"
  let s2 := s1 ++
    (match sub.runtime with
     | some r => str "**Runtime**: " ++ r
        ++ (match sub.runtimePercentile with
            | some p => str " (" ++ p ++ str "%)"
            | none => []) ++ str "\n\n"
     | none => [])
  let s3 := s2 ++
    (match sub.memory with
     | some m => str "**Memory**: " ++ m
        ++ (match sub.memoryPercentile with
            | some p => str " (" ++ p ++ str "%)"
            | none => []) ++ str "\n\n"
     | none => [])
  let s4 := s3 ++ str "*Solved on: " ++ date ++ str "*\n"
  let refs := sub.references
  if refs.youtube.isSome || refs.notes.isSome || refs.approach.isSome
      || refs.additionalRefs.isSome then
    s4 ++ str "\n### References (v" ++ natStr version ++ str ")\n\n"
    ++ (match refs.approach with
        | some a => str "**Approach**: " ++ a ++ str "\n\n"
        | none => [])
    ++ (match refs.youtube with
        | some y => str "📺 **Video**: [Watch on YouTube](" ++ y ++ str ")\n\n"
        | none => [])
    ++ (match refs.notes with
        | some n => str "📝 **Notes**:\n" ++ n ++ str "\n\n"
        | none => [])
    ++ (match refs.additionalRefs with
        | some a => str "🔗 **Resources**: " ++ a ++ str "\n\n"
        | none => [])
  else s4

/-- `appendVersionToReadme(existingContent, submission, version)` (part_001
lines 416-459): insert the new version section immediately before the
first occurrence of the footer marker, else append it followed by a fresh
footer. -/
def appendVersionToReadme (existingContent : Str) (sub : Submission) (version : Nat)
    (date : Str) : Str :=
  let versionSec := versionSection sub version date
  match findPat footerMarker existingContent with
  | some i => existingContent.take i ++ versionSec ++ existingContent.drop i
  | none => existingContent ++ versionSec ++ footerFull

/-- Insert into a sorted list under a boolean "less or equal" comparator. -/
def insertSorted {α : Type} (le : α → α → Bool) (x : α) : List α → List α
  | [] => [x]
  | y :: ys => if le x y then x :: y :: ys else y :: insertSorted le x ys

/-- Insertion sort under a boolean comparator (models `Array.prototype.sort`
with a consistent comparator; stability is irrelevant to the claims). -/
def sortBy {α : Type} (le : α → α → Bool) (l : List α) : List α :=
  l.foldr (insertSorted le) []

/-- Code-point lexicographic "less or equal" on strings, modelling both the
default string sort and `localeCompare` on the ASCII names involved. -/
def strLeB : Str → Str → Bool
  | [], _ => true
  | _ :: _, [] => false
  | a :: as, b :: bs =>
    if a.toNat < b.toNat then true
    else if b.toNat < a.toNat then false
    else strLeB as bs

/-- `topicMap.get(tag).push(problem)` with first-insertion key order
(JS `Map` preserves insertion order). -/
def insertTopic (m : List (Str × List IndexEntry)) (tag : Str) (p : IndexEntry) :
    List (Str × List IndexEntry) :=
  if m.any (fun e => e.1 == tag) then
    m.map (fun e => if e.1 == tag then (e.1, e.2 ++ [p]) else e)
  else m ++ [(tag, [p])]

/-- The topic map of `generateMainReadme` (part_001 lines 463-476). -/
def buildTopicMap (problems : List IndexEntry) : List (Str × List IndexEntry) :=
  problems.foldl
    (fun m p =>
      if p.tags.isEmpty then insertTopic m (str "Other") p
      else p.tags.foldl (fun m2 tag => insertTopic m2 tag p) m)
    []

/-- `generateMainReadme(problemIndex, repoName)` (part_001 lines 461-497). -/
def generateMainReadme (problemIndex : ProblemIndex) (repoName : Str) : Str :=
  let problems := problemIndex.map (fun p => p.2)
  let topicMap := buildTopicMap problems
  let keys := topicMap.map (fun e => e.1)
  let sortedTopics :=
    sortBy strLeB (keys.filter (fun k => k != str "Other"))
    ++ (if keys.any (fun k => k == str "Other") then [str "Other"] else [])
  let header := str "# " ++ (if repoName.isEmpty then str "Leetcode-Answers" else repoName)
    ++ str "\n\nA collection of LeetCode questions to ace the coding interview! - Synced using [CodeTrail](https://github.com/ThivakarSP/CodeTrail)\n\n## LeetCode Topics\n\n"
  sortedTopics.foldl
    (fun content topic =>
      let tps := (lookupS topicMap topic).getD []
      let tpsSorted := sortBy (fun a b => strLeB a.folderName b.folderName) tps
      content ++ str "### " ++ topic ++ str "\n"
        ++ tpsSorted.foldl
            (fun c p => c ++ str "- [" ++ p.folderName ++ str "](./" ++ p.folderName ++ str ")\n")
            []
        ++ str "\n")
    header

-- ====================================================================
-- `pushToGitHub` (src/unnamed/part_001 lines 299-385)
-- ====================================================================

/-- `submission.references.method.replace(/[^a-zA-Z0-9-_]/g, '')`. -/
def sanitizeMethod (s : Str) : Str :=
  s.filter (fun c =>
    ('a' ≤ c && c ≤ 'z') || ('A' ≤ c && c ≤ 'Z') || ('0' ≤ c && c ≤ '9')
    || c == '-' || c == '_')

/-- The per-target push-lock key `${username}/${repo}/${folderName}`. -/
def lockKeyOf (cfg : Config) (folderName : Str) : Str :=
  cfg.username ++ str "/" ++ cfg.repo ++ str "/" ++ folderName

/-- The ProblemIndex entry `pushToGitHub` stores for a submission
(tags normalized to strings and sorted). -/
def mkIndexEntry (sub : Submission) : IndexEntry :=
  { folderName := sub.folderName
    title := sub.title
    number := sub.number
    difficulty := sub.difficulty
    tags := sortBy strLeB sub.tags
    url := sub.url }

/-- The environment a `pushToGitHub` call observes: injected failures, the
branch cache, the remote folder listing seen by `getNextVersion`, the
existing remote README seen by `getFileContent` (`none` for any fetch
failure), and the rendered current date. -/
structure PushEnv where
  fs : FailSpec
  branchCache : Option Str
  listing : Option (List FileEntry)
  existingReadme : Option Str
  date : Str

/-- `pushToGitHub(config, submission)`: returns the persisted ProblemIndex
after the call, the remote state, and the call's outcome.  The index
entry is written (`saveProblemIndex`) before `commitBatch` is issued, in
both the success and the failure path. -/
def pushToGitHub (cfg : Config) (sub : Submission) (env : PushEnv)
    (index : ProblemIndex) (server : GitServer) (activePushes : List Str) :
    ProblemIndex × GitServer × Except Str Nat :=
  let lockKey := lockKeyOf cfg sub.folderName
  if activePushes.any (fun k => k == lockKey) then
    (index, server, .error (str "Sync already in progress for this problem."))
  else
    let extension := getFileExtension sub.language
    let version := getNextVersion env.listing extension
    let notesMethod := sub.references.method.map sanitizeMethod
    let solutionFilename :=
      if version > 1 ∨ notesMethod.isSome then
        match notesMethod with
        | some m =>
          sub.folderName ++ str "-" ++ m ++ str "-v" ++ natStr version ++ str "." ++ extension
        | none => sub.folderName ++ str "-v" ++ natStr version ++ str "." ++ extension
      else sub.folderName ++ str "." ++ extension
    let readmePath := sub.folderName ++ str "/README.md"
    let readmeContent :=
      if version > 1 then
        match env.existingReadme with
        | some existing => appendVersionToReadme existing sub version env.date
        | none => sub.readme
      else sub.readme
    let index2 := setIndex index sub.folderName (mkIndexEntry sub)
    let mainReadmeContent := generateMainReadme index2 cfg.repo
    let filesToCommit : List FileSpec :=
      [⟨sub.folderName ++ str "/" ++ solutionFilename, sub.code⟩,
       ⟨readmePath, readmeContent⟩,
       ⟨str "README.md", mainReadmeContent⟩]
    match commitBatch env.fs env.branchCache server filesToCommit (generateCommitMessage sub) with
    | (server2, .ok sha) => (index2, server2, .ok sha)
    | (server2, .error e) => (index2, server2, .error e)

-- ====================================================================
-- Transport retry behavior (C8): part_001 single-attempt calls versus the
-- legacy Contents-API `createOrUpdateFile` (src/utils/storage.js appendix,
-- lines 535-636)
-- ====================================================================

/-- One HTTP response: its status and whether a 403 body mentions the rate
limit. -/
structure HttpResp where
  status : Nat
  rateLimited : Bool

/-- `response.ok`: status in [200, 300). -/
def isOkStatus (s : Nat) : Bool := 200 ≤ s && s < 300

/-- `createBlob(config, content)` (part_001 lines 158-178) viewed as a
transport call: it performs exactly one fetch and throws on any non-ok
response.  `responses n` is the response the n-th attempt would receive;
the second component counts the fetches performed. -/
def createBlobCall (responses : Nat → HttpResp) : Except Str Unit × Nat :=
  let r := responses 0
  (if isOkStatus r.status then .ok ()
   else .error (str "Failed to create blob: " ++ natStr r.status), 1)

/-- `MAX_RETRIES` of the legacy module (src/utils/storage.js appendix). -/
def MAX_RETRIES : Nat := 3

/-- `RETRY_BASE_DELAY` of the legacy module (milliseconds). -/
def RETRY_BASE_DELAY : Nat := 1000

/-- The retry loop of the legacy `createOrUpdateFile` (storage.js appendix
lines 564-635): up to `MAX_RETRIES` attempts; 401/403/404/422 throw
immediately (a rate-limited 403 is never retried); ok returns; 5xx and
409 wait `RETRY_BASE_DELAY * 2^attempt` and retry while attempts remain.
Returns (outcome, attempts performed, delays slept). -/
def createOrUpdateGo (responses : Nat → HttpResp) :
    Nat → Nat → List Nat → Except Str Unit × Nat × List Nat
  | 0, attempt, delays => (.error (str "Failed to push to repository"), attempt, delays)
  | fuel + 1, attempt, delays =>
    let r := responses attempt
    if r.status = 401 then
      (.error (str "GitHub authentication failed. Please check your token."),
       attempt + 1, delays)
    else if r.status = 403 then
      if r.rateLimited then
        (.error (str "GitHub API rate limit exceeded. Please try again later."),
         attempt + 1, delays)
      else
        (.error (str "Access forbidden. Make sure your token has repo access."),
         attempt + 1, delays)
    else if r.status = 404 then
      (.error (str "Repository not found. Please check your settings."), attempt + 1, delays)
    else if isOkStatus r.status then (.ok (), attempt + 1, delays)
    else if r.status = 422 then
      (.error (str "Failed to push to repository"), attempt + 1, delays)
    else if attempt < MAX_RETRIES - 1 ∧ (500 ≤ r.status ∨ r.status = 409) then
      createOrUpdateGo responses fuel (attempt + 1)
        (delays ++ [RETRY_BASE_DELAY * 2 ^ attempt])
    else (.error (str "Failed to push to repository"), attempt + 1, delays)

/-- The legacy `createOrUpdateFile` viewed as a transport call. -/
def createOrUpdateFile (responses : Nat → HttpResp) : Except Str Unit × Nat × List Nat :=
  createOrUpdateGo responses MAX_RETRIES 0 []

/-- Modelled from the spec (§4.5 retry policy), for comparison only: a call
retried with exponential backoff up to 3 attempts on 5xx and 409.  This is
what the claim asserts each underlying call of the atomic-commit primitive
does. -/
def specRetriedCallGo (responses : Nat → HttpResp) : Nat → Nat → Except Str Unit × Nat
  | 0, attempt => (.error (str "request failed"), attempt)
  | fuel + 1, attempt =>
    let r := responses attempt
    if isOkStatus r.status then (.ok (), attempt + 1)
    else if attempt < 2 ∧ (500 ≤ r.status ∨ r.status = 409) then
      specRetriedCallGo responses fuel (attempt + 1)
    else (.error (str "request failed"), attempt + 1)

/-- Modelled from the spec: see `specRetriedCallGo`. -/
def specRetriedCall (responses : Nat → HttpResp) : Except Str Unit × Nat :=
  specRetriedCallGo responses 3 0

/-- No user references. -/
def noRefs : References := ⟨none, none, none, none, none⟩

/-- A minimal concrete submission record used as witness input. -/
def plainSub (folderName : Str) (sid : Option Str) : Submission :=
  { title := str "Two Sum"
    number := str "1"
    difficulty := str "Easy"
    tags := []
    code := str "code"
    language := str "Python"
    url := str "https://leetcode.com/problems/two-sum/"
    folderName := folderName
    readme := str "readme"
    submissionId := sid
    runtime := none
    runtimePercentile := none
    memory := none
    memoryPercentile := none
    references := noRefs
    timestamp := none }

/-- A remote repository with no objects. -/
def emptyServer : GitServer := ⟨[], [], [], [], 0⟩

/-- A push environment whose branch-ref read fails (the first network step
of `commitBatch`); everything else is healthy. -/
def failRefEnv : PushEnv :=
  ⟨⟨true, false, fun _ => false, false, false, false⟩, none, none, none, str "d"⟩

lemma scanFiles_go (extension : Str) :
    ∀ (files : List FileEntry) (a : Nat) (b : Bool),
      files.foldl
        (fun acc f =>
          if isSolutionFile f extension then
            match versionOf f.name extension with
            | some n => (max acc.1 n, acc.2)
            | none => (acc.1, true)
          else acc)
        (a, b)
      = ((versionsIn files extension).foldl max a,
         b || files.any (fun f => isBaseFile f extension)) := by
  intro files
  induction files with
  | nil => intro a b; simp [versionsIn]
  | cons f fs ih =>
    intro a b
    by_cases hf : isSolutionFile f extension = true
    · cases hv : versionOf f.name extension with
      | some n =>
        simp only [List.foldl_cons, hf, if_true, hv]
        rw [ih]
        simp [versionsIn, isBaseFile, hf, hv]
      | none =>
        simp only [List.foldl_cons, hf, if_true, hv]
        rw [ih]
        simp [versionsIn, isBaseFile, hf, hv]
    · simp only [List.foldl_cons, hf]
      rw [if_neg (by simp [hf]), ih]
      simp [versionsIn, isBaseFile, hf]

lemma scanFiles_spec (files : List FileEntry) (extension : Str) :
    scanFiles files extension
      = ((versionsIn files extension).foldl max 0,
         files.any (fun f => isBaseFile f extension)) := by
  unfold scanFiles
  rw [scanFiles_go]
  simp

lemma foldl_max_le (M : Nat) :
    ∀ (l : List Nat) (a : Nat), a ≤ M → (∀ n ∈ l, n ≤ M) → l.foldl max a ≤ M := by
  intro l
  induction l with
  | nil => intro a ha _; simpa using ha
  | cons n ns ih =>
    intro a ha hl
    simp only [List.foldl_cons]
    exact ih (max a n) (max_le ha (hl n (by simp))) (fun m hm => hl m (by simp [hm]))

lemma le_foldl_max :
    ∀ (l : List Nat) (a : Nat), a ≤ l.foldl max a ∧ ∀ n ∈ l, n ≤ l.foldl max a := by
  intro l
  induction l with
  | nil => intro a; simp
  | cons n ns ih =>
    intro a
    refine ⟨le_trans (le_max_left a n) (ih (max a n)).1, ?_⟩
    intro m hm
    rcases List.mem_cons.mp hm with h | h
    · subst h
      exact le_trans (le_max_right a m) (ih (max a m)).1
    · exact (ih (max a n)).2 m h

-- ====================================================================
-- C5: getNextVersion
-- ====================================================================

/-- C5 (amended): `getNextVersion` returns 1 for a nonexistent or empty
folder; 2 for a folder containing exactly one unversioned base solution
file and, more generally, whenever a base solution file exists and no
file carries a `-vN` version suffix; and max(N)+1 whenever the maximal
trailing `-vN` version in the folder is at least 1; the result is
always ≥ 1. -/
theorem C5_nextVersion_spec (extension : Str) :
    getNextVersion none extension = 1
    ∧ getNextVersion (some []) extension = 1
    ∧ (∀ f : FileEntry, isSolutionFile f extension = true →
        versionOf f.name extension = none →
        getNextVersion (some [f]) extension = 2)
    ∧ (∀ (files : List FileEntry) (M : Nat),
        M ∈ versionsIn files extension →
        (∀ n ∈ versionsIn files extension, n ≤ M) →
        1 ≤ M →
        getNextVersion (some files) extension = M + 1)
    ∧ (∀ files : List FileEntry,
        versionsIn files extension = [] →
        files.any (fun f => isBaseFile f extension) = true →
        getNextVersion (some files) extension = 2)
    ∧ (∀ listing, 1 ≤ getNextVersion listing extension) := by
  refine ⟨rfl, rfl, ?_, ?_, ?_, ?_⟩
  · intro f h1 h2
    simp [getNextVersion, scanFiles, h1, h2]
  · intro files M hmem hub hM
    have hmax : (versionsIn files extension).foldl max 0 = M := by
      apply le_antisymm
      · exact foldl_max_le M _ 0 (Nat.zero_le M) hub
      · exact (le_foldl_max (versionsIn files extension) 0).2 M hmem
    simp only [getNextVersion, scanFiles_spec, hmax]
    rw [if_pos (by omega)]
  · intro files hv hb
    simp [getNextVersion, scanFiles_spec, hv, hb]
  · intro listing
    cases listing with
    | none => simp [getNextVersion]
    | some files =>
      simp only [getNextVersion]
      split
      · omega
      · split <;> omega

/-- C5 witness: a folder whose highest versioned file is `-v3` yields 4. -/
theorem C5_nextVersion_spec_witness :
    3 ∈ versionsIn [⟨str "b-v3.py", str "file"⟩] (str "py")
    ∧ (∀ n ∈ versionsIn [⟨str "b-v3.py", str "file"⟩] (str "py"), n ≤ 3)
    ∧ 1 ≤ 3
    ∧ getNextVersion (some [⟨str "b-v3.py", str "file"⟩]) (str "py") = 3 + 1 :=
  ⟨by decide, by decide, by decide,
   (C5_nextVersion_spec (str "py")).2.2.2.1 [⟨str "b-v3.py", str "file"⟩] 3
     (by decide) (by decide) (by decide)⟩

/-- C5 counterexample: a folder holding `a-v0.py` and the base file `a.py`
has versioned files with max(N) = 0, so the claim predicts 0+1 = 1, but
the code returns 2 (`maxVersion > 0` fails and the base file wins). -/
theorem C5_counterexample :
    versionsIn [⟨str "a-v0.py", str "file"⟩, ⟨str "a.py", str "file"⟩] (str "py") = [0]
    ∧ getNextVersion
        (some [⟨str "a-v0.py", str "file"⟩, ⟨str "a.py", str "file"⟩]) (str "py") = 2
    ∧ (2 : Nat) ≠ 0 + 1 :=
  ⟨by decide, by decide, by decide⟩

-- ====================================================================
-- C10: a disabled configuration drops the record before the queue is read
-- ====================================================================

/-- C10: when the stored configuration is disabled,
`handleSubmissionDetected` leaves the queue, stats and problem index
unchanged and triggers no processing run. -/
theorem C10_disabled_is_frame :
    ∀ (st : Storage) (data : Submission) (tabId : Option Nat) (now : Nat),
      st.config.enabled = false →
      (handleSubmissionDetected st data tabId now).1.queue = st.queue
      ∧ (handleSubmissionDetected st data tabId now).1.stats = st.stats
      ∧ (handleSubmissionDetected st data tabId now).1.problemIndex = st.problemIndex
      ∧ (handleSubmissionDetected st data tabId now).2 = false := by
  intro st data tabId now h
  simp [handleSubmissionDetected, h]

/-- C10 witness: a concrete disabled storage state. -/
theorem C10_disabled_is_frame_witness :
    (Storage.mk ⟨str "u", str "r", str "t", false⟩ [] resetStats []).config.enabled = false
    ∧ (handleSubmissionDetected (Storage.mk ⟨str "u", str "r", str "t", false⟩ [] resetStats [])
        (plainSub (str "0001-two-sum") none) none 0).2 = false :=
  ⟨by decide,
   (C10_disabled_is_frame (Storage.mk ⟨str "u", str "r", str "t", false⟩ [] resetStats [])
     (plainSub (str "0001-two-sum") none) none 0 (by decide)).2.2.2⟩

-- ====================================================================
-- C6: stats counters
-- ====================================================================

lemma updateStats_total (s : Stats) (d : Str) (now : Nat) :
    (updateStats s d now).total = s.total + 1 := by
  simp only [updateStats]
  split_ifs <;> rfl

lemma updateStats_sum (s : Stats) (d : Str) (now : Nat)
    (hrec : recognizedDifficulty d = true)
    (h : s.total = s.easy + s.medium + s.hard) :
    (updateStats s d now).total
      = (updateStats s d now).easy + (updateStats s d now).medium
        + (updateStats s d now).hard := by
  unfold recognizedDifficulty at hrec
  simp only [updateStats]
  rcases Bool.or_eq_true_iff.mp hrec with h1 | h2
  · rcases Bool.or_eq_true_iff.mp h1 with he | hm
    · rw [if_pos (by simpa using he)]
      simp; omega
    · have hne : lowerStr d ≠ str "easy" := by
        intro hc
        rw [hc] at hm
        exact absurd (by simpa using hm) (by decide)
      rw [if_neg hne, if_pos (by simpa using hm)]
      simp; omega
  · have hh : lowerStr d = str "hard" := by simpa using h2
    have hne : lowerStr d ≠ str "easy" := by rw [hh]; decide
    have hnm : lowerStr d ≠ str "medium" := by rw [hh]; decide
    rw [if_neg hne, if_neg hnm, if_pos hh]
    simp; omega

lemma runStats_go (events : List (Str × Nat)) :
    ∀ (s : Stats), (∀ e ∈ events, recognizedDifficulty e.1 = true) →
      s.total = s.easy + s.medium + s.hard →
      (events.foldl (fun s e => updateStats s e.1 e.2) s).total
        = (events.foldl (fun s e => updateStats s e.1 e.2) s).easy
          + (events.foldl (fun s e => updateStats s e.1 e.2) s).medium
          + (events.foldl (fun s e => updateStats s e.1 e.2) s).hard := by
  induction events with
  | nil => intro s _ h; simpa using h
  | cons e es ih =>
    intro s hall h
    simp only [List.foldl_cons]
    exact ih (updateStats s e.1 e.2)
      (fun x hx => hall x (by simp [hx]))
      (updateStats_sum s e.1 e.2 (hall e (by simp)) h)

/-- C6 (amended): every `updateStats` increments `total` by exactly one and,
when the difficulty is recognized (easy/medium/hard, case-insensitively),
the matching counter by exactly one, leaving the other two unchanged; an
unrecognized difficulty leaves all three per-difficulty counters
unchanged.  Consequently `total = easy + medium + hard` holds at every
state reachable from a reset by syncs with recognized difficulties only
(and fails as soon as an unrecognized difficulty is synced). -/
theorem C6_stats_invariant :
    (∀ (s : Stats) (d : Str) (now : Nat),
      (updateStats s d now).total = s.total + 1
      ∧ (lowerStr d = str "easy" →
          (updateStats s d now).easy = s.easy + 1
          ∧ (updateStats s d now).medium = s.medium
          ∧ (updateStats s d now).hard = s.hard)
      ∧ (lowerStr d = str "medium" →
          (updateStats s d now).easy = s.easy
          ∧ (updateStats s d now).medium = s.medium + 1
          ∧ (updateStats s d now).hard = s.hard)
      ∧ (lowerStr d = str "hard" →
          (updateStats s d now).easy = s.easy
          ∧ (updateStats s d now).medium = s.medium
          ∧ (updateStats s d now).hard = s.hard + 1)
      ∧ (recognizedDifficulty d = false →
          (updateStats s d now).easy = s.easy
          ∧ (updateStats s d now).medium = s.medium
          ∧ (updateStats s d now).hard = s.hard))
    ∧ (∀ events : List (Str × Nat),
        (∀ e ∈ events, recognizedDifficulty e.1 = true) →
        (runStats events).total
          = (runStats events).easy + (runStats events).medium + (runStats events).hard) := by
  constructor
  · intro s d now
    refine ⟨updateStats_total s d now, ?_, ?_, ?_, ?_⟩
    · intro h
      simp [updateStats, h]
    · intro h
      simp only [updateStats, h]
      rw [if_neg (by decide)]
      simp
    · intro h
      simp only [updateStats, h]
      rw [if_neg (by decide), if_neg (by decide)]
      simp
    · intro h
      unfold recognizedDifficulty at h
      simp only [Bool.or_eq_false_iff, beq_eq_false_iff_ne, ne_eq] at h
      simp [updateStats, h.1.1, h.1.2, h.2]
  · intro events hall
    exact runStats_go events resetStats hall (by decide)

/-- C6 witness: two recognized syncs from a reset keep the identity. -/
theorem C6_stats_invariant_witness :
    (∀ e ∈ [(str "Easy", 0), (str "HARD", 1)], recognizedDifficulty e.1 = true)
    ∧ (runStats [(str "Easy", 0), (str "HARD", 1)]).total
        = (runStats [(str "Easy", 0), (str "HARD", 1)]).easy
          + (runStats [(str "Easy", 0), (str "HARD", 1)]).medium
          + (runStats [(str "Easy", 0), (str "HARD", 1)]).hard :=
  ⟨by decide, C6_stats_invariant.2 [(str "Easy", 0), (str "HARD", 1)] (by decide)⟩

/-- C6 counterexample: one successful sync of an `Unknown`-difficulty job
from a reset state increments `total` only, so the reachable state has
`total = 1` but `easy + medium + hard = 0`. -/
theorem C6_counterexample :
    (runStats [(str "Unknown", 0)]).total = 1
    ∧ (runStats [(str "Unknown", 0)]).easy + (runStats [(str "Unknown", 0)]).medium
        + (runStats [(str "Unknown", 0)]).hard = 0
    ∧ (runStats [(str "Unknown", 0)]).total
        ≠ (runStats [(str "Unknown", 0)]).easy + (runStats [(str "Unknown", 0)]).medium
          + (runStats [(str "Unknown", 0)]).hard :=
  ⟨by decide, by decide, by decide⟩

-- ====================================================================
-- C2: the failure branch of one processing pass
-- ====================================================================

/-- C2: when the head job's sync fails, a fatal error (per `isFatal`) or
`retryCount ≥ 3` emits exactly one final error status and dequeues the
head permanently; otherwise the head's `retryCount` is incremented in
place and it stays at the head, the tail being untouched in both cases
(strict FIFO), and the stats are never changed by a failing pass. -/
theorem C2_retry_policy (stats : Stats) (j : Job) (rest : List Job) (msg : Str) (now : Nat) :
    (isFatal msg = true ∨ 3 ≤ j.retryCount →
      (processOnce ⟨j :: rest, stats⟩ (some msg) now).1.queue = rest
      ∧ (processOnce ⟨j :: rest, stats⟩ (some msg) now).2
          = [⟨.syncing, str "Syncing \"" ++ j.title ++ str "\"..."⟩,
             ⟨.error,
              if isFatal msg
              then str "Sync failed: " ++ msg ++ str " (Check Settings)"
              else str "Sync failed permanently: " ++ msg⟩]
      ∧ (((processOnce ⟨j :: rest, stats⟩ (some msg) now).2.filter
            (fun e => e.kind == StatusKind.error)).length = 1))
    ∧ (isFatal msg = false → j.retryCount < 3 →
      (processOnce ⟨j :: rest, stats⟩ (some msg) now).1.queue
          = { j with retryCount := j.retryCount + 1 } :: rest
      ∧ (processOnce ⟨j :: rest, stats⟩ (some msg) now).2
          = [⟨.syncing, str "Syncing \"" ++ j.title ++ str "\"..."⟩,
             ⟨.error, str "Sync failed: " ++ msg ++ str ". Retrying..."⟩]
      ∧ (((processOnce ⟨j :: rest, stats⟩ (some msg) now).2.filter
            (fun e => e.kind == StatusKind.error)).length = 1))
    ∧ (processOnce ⟨j :: rest, stats⟩ (some msg) now).1.stats = stats := by
  by_cases hc : isFatal msg = false ∧ j.retryCount < 3
  · refine ⟨?_, ?_, ?_⟩
    · intro h
      exfalso
      rcases h with h | h
      · rw [h] at hc; exact absurd hc.1 (by simp)
      · omega
    · intro _ _
      refine ⟨?_, ?_, ?_⟩ <;> simp [processOnce, hc, List.filter]
    · simp [processOnce, hc]
  · refine ⟨?_, ?_, ?_⟩
    · intro _
      refine ⟨?_, ?_, ?_⟩ <;> simp [processOnce, hc, List.filter]
    · intro h1 h2
      exact absurd ⟨h1, h2⟩ hc
    · simp [processOnce, hc]

/-- C2 witness: a fatal `Bad credentials` failure drops the head job. -/
theorem C2_retry_policy_witness :
    isFatal (str "Bad credentials") = true
    ∧ (processOnce ⟨[⟨none, str "f", str "T", str "Easy", none, 1, 0⟩], resetStats⟩
        (some (str "Bad credentials")) 0).1.queue = [] :=
  ⟨by decide,
   ((C2_retry_policy resetStats ⟨none, str "f", str "T", str "Easy", none, 1, 0⟩ []
      (str "Bad credentials") 0).1 (Or.inl (by decide))).1⟩

-- ====================================================================
-- C7: a missing configuration is classified transient and retried
-- ====================================================================

/-- C7 (amended): an empty account, repository or credential makes
`handleSyncSubmission` throw `'GitHub not configured'`; this message
matches none of the fatal substrings, so the queue processor treats the
failure as transient: a job with remaining attempts consumes a retry
(its `retryCount` is incremented and it stays at the head) and is only
dropped once `retryCount` reaches 3. -/
theorem C7_config_error_retried (cfg : Config) (pushOutcome : Option Str)
    (hmiss : configMissing cfg = true) :
    syncSubmissionOutcome cfg pushOutcome = some (str "GitHub not configured")
    ∧ isFatal (str "GitHub not configured") = false
    ∧ (∀ (stats : Stats) (j : Job) (rest : List Job) (now : Nat),
        j.retryCount < 3 →
        (processOnce ⟨j :: rest, stats⟩ (some (str "GitHub not configured")) now).1.queue
          = { j with retryCount := j.retryCount + 1 } :: rest)
    ∧ (∀ (stats : Stats) (j : Job) (rest : List Job) (now : Nat),
        3 ≤ j.retryCount →
        (processOnce ⟨j :: rest, stats⟩ (some (str "GitHub not configured")) now).1.queue
          = rest) := by
  refine ⟨by simp [syncSubmissionOutcome, hmiss], by decide, ?_, ?_⟩
  · intro stats j rest now hlt
    have hf : isFatal (str "GitHub not configured") = false := by decide
    simp [processOnce, hf, hlt]
  · intro stats j rest now hge
    have hc : ¬(isFatal (str "GitHub not configured") = false ∧ j.retryCount < 3) := by
      intro hc
      omega
    simp [processOnce, hc]

/-- C7 witness: a configuration with an empty credential. -/
theorem C7_config_error_retried_witness :
    configMissing ⟨str "u", str "r", str "", true⟩ = true
    ∧ syncSubmissionOutcome ⟨str "u", str "r", str "", true⟩ none
        = some (str "GitHub not configured") :=
  ⟨by decide,
   (C7_config_error_retried ⟨str "u", str "r", str "", true⟩ none (by decide)).1⟩

/-- C7 counterexample: with an empty token the sync throws
`'GitHub not configured'`, which is not classified fatal, and a fresh job
(retryCount 0) is re-queued with retryCount 1 instead of being surfaced
without consuming retry attempts — the configuration error is retried. -/
theorem C7_counterexample :
    syncSubmissionOutcome ⟨str "u", str "r", str "", true⟩ none
        = some (str "GitHub not configured")
    ∧ isFatal (str "GitHub not configured") = false
    ∧ (processOnce ⟨[⟨none, str "f", str "T", str "Easy", none, 1, 0⟩], resetStats⟩
        (some (str "GitHub not configured")) 0).1.queue
        = [⟨none, str "f", str "T", str "Easy", none, 1, 1⟩] :=
  ⟨by decide, by decide, by decide⟩

-- ====================================================================
-- C4: enqueue deduplication
-- ====================================================================

/-- C4 (amended): with an enabled configuration, an enqueue is a silent
no-op exactly when some queued job has the same (present, non-empty)
submission id or the same folder identifier; otherwise a job with
`retryCount 0` is appended to the tail and processing is triggered.
Consequently folder identifiers stay pairwise distinct in the queue. -/
theorem C4_enqueue_dedup (st : Storage) (data : Submission) (tabId : Option Nat) (now : Nat)
    (hen : st.config.enabled = true) :
    (isDuplicateIn st.queue data = true →
      handleSubmissionDetected st data tabId now = (st, false))
    ∧ (isDuplicateIn st.queue data = false →
      (handleSubmissionDetected st data tabId now).1.queue
          = st.queue ++ [mkJob data tabId now]
        ∧ (mkJob data tabId now).retryCount = 0
        ∧ (handleSubmissionDetected st data tabId now).2 = true)
    ∧ (List.Pairwise (fun a b => a.folderName ≠ b.folderName) st.queue →
       List.Pairwise (fun a b => a.folderName ≠ b.folderName)
         (handleSubmissionDetected st data tabId now).1.queue) := by
  refine ⟨?_, ?_, ?_⟩
  · intro hd
    simp [handleSubmissionDetected, hen, hd]
  · intro hd
    refine ⟨?_, rfl, ?_⟩ <;> simp [handleSubmissionDetected, hen, hd]
  · intro hp
    by_cases hd : isDuplicateIn st.queue data = true
    · simpa [handleSubmissionDetected, hen, hd] using hp
    · rw [Bool.not_eq_true] at hd
      have hnotin : ∀ a ∈ st.queue, a.folderName ≠ data.folderName := by
        intro a ha hcon
        have : isDuplicateIn st.queue data = true := by
          unfold isDuplicateIn
          rw [List.any_eq_true]
          refine ⟨a, ha, ?_⟩
          rw [Bool.or_eq_true]
          exact Or.inr (by simp [hcon])
        rw [this] at hd
        exact absurd hd (by simp)
      simp only [handleSubmissionDetected, hen, hd]
      rw [if_neg (by simp), if_neg (by simp [hd])]
      simp only [List.pairwise_append]
      refine ⟨hp, by simp, ?_⟩
      intro a ha b hb
      simp only [List.mem_singleton] at hb
      subst hb
      exact hnotin a ha

/-- C4 witness: a fresh folder identifier is appended with retryCount 0. -/
theorem C4_enqueue_dedup_witness :
    isDuplicateIn [] (plainSub (str "0001-two-sum") none) = false
    ∧ (handleSubmissionDetected
        (Storage.mk ⟨str "u", str "r", str "t", true⟩ [] resetStats [])
        (plainSub (str "0001-two-sum") none) none 7).1.queue
        = [mkJob (plainSub (str "0001-two-sum") none) none 7]
    ∧ (mkJob (plainSub (str "0001-two-sum") none) none 7).retryCount = 0 :=
  ⟨by decide,
   ((C4_enqueue_dedup (Storage.mk ⟨str "u", str "r", str "t", true⟩ [] resetStats [])
      (plainSub (str "0001-two-sum") none) none 7 (by decide)).2.1 (by decide)).1,
   ((C4_enqueue_dedup (Storage.mk ⟨str "u", str "r", str "t", true⟩ [] resetStats [])
      (plainSub (str "0001-two-sum") none) none 7 (by decide)).2.1 (by decide)).2.1⟩

/-- C4 counterexample: a record whose natural key (submission id "2") is
absent from the queue is nevertheless dropped because its folder
identifier matches a queued job holding submission id "1" — the claimed
"otherwise append" behavior fails for a fresh natural key. -/
theorem C4_counterexample :
    ([⟨some (str "1"), str "0001-two-sum", str "T", str "Easy", none, 5, 0⟩].map natKey).contains
        (dataNatKey (plainSub (str "0001-two-sum") (some (str "2")))) = false
    ∧ (handleSubmissionDetected
        (Storage.mk ⟨str "u", str "r", str "t", true⟩
          [⟨some (str "1"), str "0001-two-sum", str "T", str "Easy", none, 5, 0⟩] resetStats [])
        (plainSub (str "0001-two-sum") (some (str "2"))) none 0).1.queue
        = [⟨some (str "1"), str "0001-two-sum", str "T", str "Easy", none, 5, 0⟩]
    ∧ (handleSubmissionDetected
        (Storage.mk ⟨str "u", str "r", str "t", true⟩
          [⟨some (str "1"), str "0001-two-sum", str "T", str "Easy", none, 5, 0⟩] resetStats [])
        (plainSub (str "0001-two-sum") (some (str "2"))) none 0).1.queue
        ≠ [⟨some (str "1"), str "0001-two-sum", str "T", str "Easy", none, 5, 0⟩]
          ++ [mkJob (plainSub (str "0001-two-sum") (some (str "2"))) none 0] :=
  ⟨by decide, by decide, by decide⟩

-- ====================================================================
-- C9: appendVersionToReadme
-- ====================================================================

lemma appendVersion_insert (existing : Str) (sub : Submission) (version : Nat) (date : Str)
    (i : Nat) (h : findPat footerMarker existing = some i) :
    appendVersionToReadme existing sub version date
      = existing.take i ++ versionSection sub version date ++ existing.drop i := by
  simp [appendVersionToReadme, h]

lemma appendVersion_no_marker (existing : Str) (sub : Submission) (version : Nat) (date : Str)
    (h : findPat footerMarker existing = none) :
    appendVersionToReadme existing sub version date
      = existing ++ versionSection sub version date ++ footerFull := by
  simp [appendVersionToReadme, h]

/-- C9 (amended): `appendVersionToReadme` inserts the generated version
section immediately before the *first* occurrence of the footer marker,
and appends it followed by a fresh footer when no marker occurs.  When
the marker's first occurrence in the existing text is its trailing footer
and the inserted section introduces no earlier occurrence, applying
version 2 and then version 3 yields `body ++ section2 ++ section3 ++
footer`: both new sections precede the attribution footer and the
Version 2 section's content entirely precedes the Version 3 section's. -/
theorem C9_appendVersion_structure :
    (∀ (existing : Str) (sub : Submission) (version : Nat) (date : Str) (i : Nat),
       findPat footerMarker existing = some i →
       appendVersionToReadme existing sub version date
         = existing.take i ++ versionSection sub version date ++ existing.drop i)
    ∧ (∀ (existing : Str) (sub : Submission) (version : Nat) (date : Str),
       findPat footerMarker existing = none →
       appendVersionToReadme existing sub version date
         = existing ++ versionSection sub version date ++ footerFull)
    ∧ (∀ (body : Str) (sub2 sub3 : Submission) (d2 d3 : Str),
       findPat footerMarker (body ++ footerFull) = some body.length →
       findPat footerMarker ((body ++ versionSection sub2 2 d2) ++ footerFull)
         = some (body ++ versionSection sub2 2 d2).length →
       appendVersionToReadme
         (appendVersionToReadme (body ++ footerFull) sub2 2 d2) sub3 3 d3
         = body ++ versionSection sub2 2 d2 ++ versionSection sub3 3 d3 ++ footerFull) := by
  refine ⟨appendVersion_insert, appendVersion_no_marker, ?_⟩
  intro body sub2 sub3 d2 d3 h1 h2
  have e1 := appendVersion_insert (body ++ footerFull) sub2 2 d2 body.length h1
  rw [List.take_left, List.drop_left] at e1
  have e2 := appendVersion_insert ((body ++ versionSection sub2 2 d2) ++ footerFull)
    sub3 3 d3 (body ++ versionSection sub2 2 d2).length h2
  rw [List.take_left, List.drop_left] at e2
  rw [e1]
  exact e2

/-- C9 witness: a plain body whose only marker occurrence is the footer. -/
theorem C9_appendVersion_structure_witness :
    findPat footerMarker (str "# Title\n" ++ footerFull) = some (str "# Title\n").length
    ∧ findPat footerMarker
        ((str "# Title\n" ++ versionSection (plainSub (str "f") none) 2 (str "1/1/2026"))
          ++ footerFull)
        = some (str "# Title\n" ++ versionSection (plainSub (str "f") none) 2 (str "1/1/2026")).length
    ∧ appendVersionToReadme
        (appendVersionToReadme (str "# Title\n" ++ footerFull)
          (plainSub (str "f") none) 2 (str "1/1/2026"))
        (plainSub (str "f") none) 3 (str "1/1/2026")
        = str "# Title\n" ++ versionSection (plainSub (str "f") none) 2 (str "1/1/2026")
          ++ versionSection (plainSub (str "f") none) 3 (str "1/1/2026") ++ footerFull :=
  ⟨by decide, by decide,
   C9_appendVersion_structure.2.2 (str "# Title\n") (plainSub (str "f") none)
     (plainSub (str "f") none) (str "1/1/2026") (str "1/1/2026") (by decide) (by decide)⟩

/-- C9 counterexample: on an existing README that already contains the
text `## Version 1`, applying version 2 then version 3 yields three
`## Version` occurrences, not exactly two as the claim states. -/
theorem C9_counterexample :
    countOcc versionHeading
      (appendVersionToReadme
        (appendVersionToReadme (str "# T\n\n## Version 1\n")
          (plainSub (str "f") none) 2 (str "1/1/2026"))
        (plainSub (str "f") none) 3 (str "1/1/2026")) = 3
    ∧ countOcc versionHeading
      (appendVersionToReadme
        (appendVersionToReadme (str "# T\n\n## Version 1\n")
          (plainSub (str "f") none) 2 (str "1/1/2026"))
        (plainSub (str "f") none) 3 (str "1/1/2026")) ≠ 2 :=
  ⟨by decide, by decide⟩

-- ====================================================================
-- C3: the ProblemIndex write happens before the commit
-- ====================================================================

/-- C3 (amended): `pushToGitHub` persists the updated ProblemIndex entry
*before* issuing the commit: whenever the per-target lock is free, the
persisted index after the call is `setIndex index folderName entry`
regardless of whether the commit succeeded or raised an error, so on a
commit failure the index already holds the new entry and can diverge
from the remote state. -/
theorem C3_index_saved_before_commit (cfg : Config) (sub : Submission) (env : PushEnv)
    (index : ProblemIndex) (server : GitServer) (activePushes : List Str)
    (hlock : activePushes.any (fun k => k == lockKeyOf cfg sub.folderName) = false) :
    (pushToGitHub cfg sub env index server activePushes).1
      = setIndex index sub.folderName (mkIndexEntry sub) := by
  simp only [pushToGitHub]
  rw [if_neg (by simp [hlock])]
  split <;> rfl

/-- C3 witness: a lock-free concrete push. -/
theorem C3_index_saved_before_commit_witness :
    ([] : List Str).any
        (fun k => k == lockKeyOf ⟨str "u", str "r", str "t", true⟩
          (plainSub (str "0001-two-sum") none).folderName) = false
    ∧ (pushToGitHub ⟨str "u", str "r", str "t", true⟩ (plainSub (str "0001-two-sum") none)
        failRefEnv [] emptyServer []).1
        = setIndex [] (plainSub (str "0001-two-sum") none).folderName
            (mkIndexEntry (plainSub (str "0001-two-sum") none)) :=
  ⟨by decide,
   C3_index_saved_before_commit ⟨str "u", str "r", str "t", true⟩
     (plainSub (str "0001-two-sum") none) failRefEnv [] emptyServer [] (by decide)⟩

/-- C3 counterexample: with a failing branch-ref read the commit primitive
raises an error, yet the persisted ProblemIndex now contains the new
entry — it is not left unchanged on commit failure. -/
theorem C3_counterexample :
    (pushToGitHub ⟨str "u", str "r", str "t", true⟩ (plainSub (str "0001-two-sum") none)
        failRefEnv [] emptyServer []).2.2
      = Except.error (str "Failed to get ref: 500")
    ∧ (pushToGitHub ⟨str "u", str "r", str "t", true⟩ (plainSub (str "0001-two-sum") none)
        failRefEnv [] emptyServer []).1
      = [(str "0001-two-sum", mkIndexEntry (plainSub (str "0001-two-sum") none))]
    ∧ ([] : ProblemIndex)
      ≠ [(str "0001-two-sum", mkIndexEntry (plainSub (str "0001-two-sum") none))] :=
  ⟨rfl, rfl, by decide⟩

-- ====================================================================
-- C8: transport retry policy
-- ====================================================================

lemma createOrUpdateGo_spec (responses : Nat → HttpResp) :
    ∀ (fuel attempt : Nat) (delays : List Nat),
      1 ≤ fuel → attempt + fuel = MAX_RETRIES →
      delays = (List.range attempt).map (fun i => RETRY_BASE_DELAY * 2 ^ i) →
      ∀ (out : Except Str Unit) (att : Nat) (ds : List Nat),
        createOrUpdateGo responses fuel attempt delays = (out, att, ds) →
        att ≤ MAX_RETRIES
        ∧ attempt < att
        ∧ ds = (List.range (att - 1)).map (fun i => RETRY_BASE_DELAY * 2 ^ i)
        ∧ (∀ i, attempt ≤ i → i + 1 < att →
            500 ≤ (responses i).status ∨ (responses i).status = 409)
        ∧ ((responses attempt).status = 403 → (responses attempt).rateLimited = true →
            out = .error (str "GitHub API rate limit exceeded. Please try again later.")
            ∧ att = attempt + 1 ∧ ds = delays) := by
  have hMR : MAX_RETRIES = 3 := rfl
  intro fuel
  induction fuel with
  | zero => intro attempt delays h1; exact absurd h1 (by omega)
  | succ fuel ih =>
    intro attempt delays _ hsum hdel out att ds heq
    simp only [createOrUpdateGo] at heq
    split_ifs at heq with h1 h2 h2a h3 h4 h5 h6
    · injection heq with ho hrest
      injection hrest with ha hd
      subst ho; subst ha; subst hd
      refine ⟨by omega, by omega, by simpa using hdel, ?_, ?_⟩
      · intro i hle hlt; omega
      · intro h403 _; omega
    · injection heq with ho hrest
      injection hrest with ha hd
      subst ho; subst ha; subst hd
      refine ⟨by omega, by omega, by simpa using hdel, ?_, ?_⟩
      · intro i hle hlt; omega
      · intro _ _; exact ⟨rfl, rfl, rfl⟩
    · injection heq with ho hrest
      injection hrest with ha hd
      subst ho; subst ha; subst hd
      refine ⟨by omega, by omega, by simpa using hdel, ?_, ?_⟩
      · intro i hle hlt; omega
      · intro _ hrl; exact absurd hrl h2a
    · injection heq with ho hrest
      injection hrest with ha hd
      subst ho; subst ha; subst hd
      refine ⟨by omega, by omega, by simpa using hdel, ?_, ?_⟩
      · intro i hle hlt; omega
      · intro h403 _; exact absurd h403 h2
    · injection heq with ho hrest
      injection hrest with ha hd
      subst ho; subst ha; subst hd
      refine ⟨by omega, by omega, by simpa using hdel, ?_, ?_⟩
      · intro i hle hlt; omega
      · intro h403 _; exact absurd h403 h2
    · injection heq with ho hrest
      injection hrest with ha hd
      subst ho; subst ha; subst hd
      refine ⟨by omega, by omega, by simpa using hdel, ?_, ?_⟩
      · intro i hle hlt; omega
      · intro h403 _; exact absurd h403 h2
    · have hfuel : 1 ≤ fuel := by omega
      have hsum2 : (attempt + 1) + fuel = MAX_RETRIES := by omega
      have hdel2 : delays ++ [RETRY_BASE_DELAY * 2 ^ attempt]
          = (List.range (attempt + 1)).map (fun i => RETRY_BASE_DELAY * 2 ^ i) := by
        rw [hdel, List.range_succ, List.map_append]
        rfl
      have h := ih (attempt + 1) (delays ++ [RETRY_BASE_DELAY * 2 ^ attempt])
        hfuel hsum2 hdel2 out att ds heq
      refine ⟨h.1, by omega, h.2.2.1, ?_, ?_⟩
      · intro i hle hlt
        rcases Nat.eq_or_lt_of_le hle with he | hgt
        · subst he
          exact h6.2
        · exact h.2.2.2.1 i (by omega) hlt
      · intro h403 _
        exact absurd h403 h2
    · injection heq with ho hrest
      injection hrest with ha hd
      subst ho; subst ha; subst hd
      refine ⟨by omega, by omega, by simpa using hdel, ?_, ?_⟩
      · intro i hle hlt; omega
      · intro h403 _; exact absurd h403 h2

/-- C8 (amended): the Git-Data-API calls of the atomic-commit primitive are
never retried — `createBlob` performs exactly one fetch and raises on the
first non-ok response.  The exponential-backoff retry (delay
`RETRY_BASE_DELAY * 2^attempt`, at most `MAX_RETRIES = 3` attempts,
retrying only on 5xx or 409) lives solely in the legacy Contents-API
`createOrUpdateFile`, which also never retries a rate-limited 403. -/
theorem C8_retry_policy :
    (∀ responses, (createBlobCall responses).2 = 1)
    ∧ (∀ responses, (createOrUpdateFile responses).2.1 ≤ MAX_RETRIES)
    ∧ (∀ responses, (createOrUpdateFile responses).2.2
        = (List.range ((createOrUpdateFile responses).2.1 - 1)).map
            (fun i => RETRY_BASE_DELAY * 2 ^ i))
    ∧ (∀ responses i, i + 1 < (createOrUpdateFile responses).2.1 →
        500 ≤ (responses i).status ∨ (responses i).status = 409)
    ∧ (∀ responses, (responses 0).status = 403 → (responses 0).rateLimited = true →
        (createOrUpdateFile responses).2.1 = 1
        ∧ (createOrUpdateFile responses).1
            = .error (str "GitHub API rate limit exceeded. Please try again later.")) := by
  have base : ∀ responses : Nat → HttpResp, ∀ out att ds,
      createOrUpdateFile responses = (out, att, ds) →
      att ≤ MAX_RETRIES
      ∧ 0 < att
      ∧ ds = (List.range (att - 1)).map (fun i => RETRY_BASE_DELAY * 2 ^ i)
      ∧ (∀ i, i + 1 < att → 500 ≤ (responses i).status ∨ (responses i).status = 409)
      ∧ ((responses 0).status = 403 → (responses 0).rateLimited = true →
          out = .error (str "GitHub API rate limit exceeded. Please try again later.")
          ∧ att = 1 ∧ ds = []) := by
    intro responses out att ds heq
    have h := createOrUpdateGo_spec responses MAX_RETRIES 0 [] (by decide) (by omega)
      (by simp) out att ds heq
    refine ⟨h.1, h.2.1, h.2.2.1, ?_, ?_⟩
    · intro i hi
      exact h.2.2.2.1 i (by omega) hi
    · intro h403 hrl
      rcases h.2.2.2.2 h403 hrl with ⟨ho, ha, hd⟩
      exact ⟨ho, by omega, hd⟩
  refine ⟨fun responses => rfl, ?_, ?_, ?_, ?_⟩
  · intro responses
    rcases heq : createOrUpdateFile responses with ⟨out, rest⟩
    rcases rest with ⟨att, ds⟩
    exact (base responses out att ds heq).1
  · intro responses
    rcases heq : createOrUpdateFile responses with ⟨out, rest⟩
    rcases rest with ⟨att, ds⟩
    exact (base responses out att ds heq).2.2.1
  · intro responses i
    rcases heq : createOrUpdateFile responses with ⟨out, rest⟩
    rcases rest with ⟨att, ds⟩
    exact (base responses out att ds heq).2.2.2.1 i
  · intro responses h403 hrl
    rcases heq : createOrUpdateFile responses with ⟨out, rest⟩
    rcases rest with ⟨att, ds⟩
    rcases (base responses out att ds heq).2.2.2.2 h403 hrl with ⟨ho, ha, _⟩
    exact ⟨ha, ho⟩

/-- C8 witness: a rate-limited 403 is never retried. -/
theorem C8_retry_policy_witness :
    ((fun _ => ⟨403, true⟩ : Nat → HttpResp) 0).status = 403
    ∧ ((fun _ => ⟨403, true⟩ : Nat → HttpResp) 0).rateLimited = true
    ∧ (createOrUpdateFile (fun _ => ⟨403, true⟩)).2.1 = 1 :=
  ⟨rfl, rfl, (C8_retry_policy.2.2.2.2 (fun _ => ⟨403, true⟩) rfl rfl).1⟩

/-- C8 counterexample: on a 500 followed by a 200, the claimed retry policy
(modelled as `specRetriedCall`) succeeds on its second attempt, but the
atomic-commit primitive's `createBlob` performs a single fetch and raises
immediately — it is not retried. -/
theorem C8_counterexample :
    (createBlobCall (fun n => if n = 0 then ⟨500, false⟩ else ⟨200, false⟩)).2 = 1
    ∧ (createBlobCall (fun n => if n = 0 then ⟨500, false⟩ else ⟨200, false⟩)).1
        = .error (str "Failed to create blob: 500")
    ∧ (specRetriedCall (fun n => if n = 0 then ⟨500, false⟩ else ⟨200, false⟩)).1 = .ok ()
    ∧ (specRetriedCall (fun n => if n = 0 then ⟨500, false⟩ else ⟨200, false⟩)).2 = 2 :=
  ⟨rfl, rfl, rfl, rfl⟩

-- ====================================================================
-- C1: atomicity of commitBatch
-- ====================================================================

lemma lookupN_cons_self {β : Type} (k : Nat) (v : β) (l : List (Nat × β)) :
    lookupN ((k, v) :: l) k = some v := by simp [lookupN]

lemma lookupN_cons_ne {β : Type} (k k2 : Nat) (v : β) (l : List (Nat × β)) (h : k ≠ k2) :
    lookupN ((k, v) :: l) k2 = lookupN l k2 := by
  simp [lookupN, List.find?_cons, h]

lemma lookupS_cons_self {β : Type} (k : Str) (v : β) (l : List (Str × β)) :
    lookupS ((k, v) :: l) k = some v := by simp [lookupS]

lemma lookupS_cons_ne {β : Type} (k k2 : Str) (v : β) (l : List (Str × β)) (h : k ≠ k2) :
    lookupS ((k, v) :: l) k2 = lookupS l k2 := by
  simp [lookupS, List.find?_cons, h]

lemma lookupS_append {β : Type} (a b : List (Str × β)) (k : Str) :
    lookupS (a ++ b) k
      = match lookupS a k with
        | some v => some v
        | none => lookupS b k := by
  induction a with
  | nil => simp [lookupS]
  | cons p rest ih =>
    obtain ⟨pk, pv⟩ := p
    by_cases h : pk = k
    · subst h
      rw [List.cons_append, lookupS_cons_self, lookupS_cons_self]
    · rw [List.cons_append, lookupS_cons_ne pk k pv (rest ++ b) h,
          lookupS_cons_ne pk k pv rest h, ih]

lemma lookupS_not_mem {β : Type} (l : List (Str × β)) (k : Str)
    (h : k ∉ l.map (fun p => p.1)) : lookupS l k = none := by
  induction l with
  | nil => rfl
  | cons p rest ih =>
    obtain ⟨pk, pv⟩ := p
    simp only [List.map_cons, List.mem_cons] at h
    push_neg at h
    rw [lookupS_cons_ne pk k pv rest (fun hc => h.1 hc.symm)]
    exact ih h.2

lemma lookupS_reverse {β : Type} (l : List (Str × β))
    (h : (l.map (fun p => p.1)).Nodup) (k : Str) :
    lookupS l.reverse k = lookupS l k := by
  induction l with
  | nil => rfl
  | cons p rest ih =>
    obtain ⟨pk, pv⟩ := p
    simp only [List.map_cons, List.nodup_cons] at h
    by_cases hk : pk = k
    · have hnm : lookupS rest.reverse k = none := by
        apply lookupS_not_mem
        intro hmem
        rw [List.map_reverse, List.mem_reverse] at hmem
        exact h.1 (by rw [hk]; exact hmem)
      rw [List.reverse_cons, lookupS_append, hnm]
      show lookupS [(pk, pv)] k = lookupS ((pk, pv) :: rest) k
      rw [hk, lookupS_cons_self, lookupS_cons_self]
    · rw [List.reverse_cons, lookupS_append, lookupS_cons_ne pk k pv rest hk, ih h.2]
      cases hr : lookupS rest k
      · rw [lookupS_cons_ne pk k pv [] hk]
        rfl
      · rfl

lemma foldl_prepend {α : Type} (items : List α) :
    ∀ base : List α, items.foldl (fun t pr => pr :: t) base = items.reverse ++ base := by
  induction items with
  | nil => intro base; simp
  | cons x xs ih =>
    intro base
    simp only [List.foldl_cons, List.reverse_cons]
    rw [ih (x :: base)]
    simp

lemma lookupS_forall2 (blobs : List (Nat × Str)) :
    ∀ (files : List FileSpec) (items : TreeEntries),
      List.Forall₂
        (fun (f : FileSpec) (pr : Str × Nat) =>
          pr.1 = f.path ∧ lookupN blobs pr.2 = some f.content)
        files items →
      (files.map (fun f => f.path)).Nodup →
      ∀ f ∈ files, ∃ b, lookupS items f.path = some b ∧ lookupN blobs b = some f.content := by
  intro files items hf2
  induction hf2 with
  | nil =>
    intro _ f hf
    simp at hf
  | cons hhead htail ih =>
    rename_i f0 pr0 files0 items0
    obtain ⟨pk, pv⟩ := pr0
    intro hnd g hg
    simp only [List.map_cons, List.nodup_cons] at hnd
    rcases List.mem_cons.mp hg with he | hm
    · subst he
      have hkey : pk = g.path := hhead.1
      subst hkey
      exact ⟨pv, lookupS_cons_self g.path pv items0, hhead.2⟩
    · have hk1 : pk = f0.path := hhead.1
      have hne : pk ≠ g.path := by
        rw [hk1]
        intro hc
        exact hnd.1 (by rw [hc]; exact List.mem_map_of_mem (fun f => f.path) hm)
      rw [lookupS_cons_ne pk g.path pv items0 hne]
      exact ih hnd.2 g hm

lemma forall2_keys (blobs : List (Nat × Str)) (files : List FileSpec) (items : TreeEntries)
    (h : List.Forall₂
      (fun (f : FileSpec) (pr : Str × Nat) =>
        pr.1 = f.path ∧ lookupN blobs pr.2 = some f.content)
      files items) :
    items.map (fun p => p.1) = files.map (fun f => f.path) := by
  induction h with
  | nil => rfl
  | cons hhead htail ih =>
    simp only [List.map_cons, ih, List.cons.injEq]
    exact ⟨hhead.1, trivial⟩

lemma createBlobs_spec (fs : FailSpec) :
    ∀ (files : List FileSpec) (server : GitServer) (i : Nat) (s2 : GitServer)
      (out : Except Str TreeEntries),
      createBlobs fs server files i = (s2, out) →
      s2.refs = server.refs
      ∧ s2.commits = server.commits
      ∧ s2.trees = server.trees
      ∧ server.nextId ≤ s2.nextId
      ∧ (∀ id, id < server.nextId → lookupN s2.blobs id = lookupN server.blobs id)
      ∧ (∀ items, out = .ok items →
          List.Forall₂
            (fun (f : FileSpec) (pr : Str × Nat) =>
              pr.1 = f.path ∧ lookupN s2.blobs pr.2 = some f.content)
            files items) := by
  intro files
  induction files with
  | nil =>
    intro server i s2 out heq
    simp only [createBlobs] at heq
    injection heq with h1 h2
    subst h1
    subst h2
    refine ⟨rfl, rfl, rfl, le_refl _, fun id _ => rfl, ?_⟩
    intro items hok
    injection hok with h
    subst h
    exact List.Forall₂.nil
  | cons f rest ih =>
    intro server i s2 out heq
    simp only [createBlobs] at heq
    by_cases hfail : fs.failBlob i = true
    · rw [if_pos hfail] at heq
      injection heq with h1 h2
      subst h1
      subst h2
      refine ⟨rfl, rfl, rfl, le_refl _, fun id _ => rfl, ?_⟩
      intro items hok
      simp at hok
    · rw [if_neg hfail] at heq
      split at heq
      · rename_i s3 items0 hrec
        injection heq with h1 h2
        subst h1
        subst h2
        have hih := ih _ (i + 1) s3 _ hrec
        refine ⟨?_, ?_, ?_, ?_, ?_, ?_⟩
        · rw [hih.1]
        · rw [hih.2.1]
        · rw [hih.2.2.1]
        · have := hih.2.2.2.1
          simp at this
          omega
        · intro id hid
          have hpres := hih.2.2.2.2.1 id (by simp; omega)
          rw [hpres]
          exact lookupN_cons_ne server.nextId id f.content server.blobs (by omega)
        · intro items hok
          injection hok with h
          subst h
          refine List.Forall₂.cons ⟨rfl, ?_⟩ (hih.2.2.2.2.2 items0 rfl)
          have hpres := hih.2.2.2.2.1 server.nextId (by simp)
          rw [hpres]
          exact lookupN_cons_self server.nextId f.content server.blobs
      · rename_i s3 e hrec
        injection heq with h1 h2
        subst h1
        subst h2
        have hih := ih _ (i + 1) s3 _ hrec
        refine ⟨?_, ?_, ?_, ?_, ?_, ?_⟩
        · rw [hih.1]
        · rw [hih.2.1]
        · rw [hih.2.2.1]
        · have := hih.2.2.2.1
          simp at this
          omega
        · intro id hid
          have hpres := hih.2.2.2.2.1 id (by simp; omega)
          rw [hpres]
          exact lookupN_cons_ne server.nextId id f.content server.blobs (by omega)
        · intro items hok
          simp at hok

lemma createTree_spec (fs : FailSpec) (server : GitServer) (baseTid : Nat)
    (files : List FileSpec) (s2 : GitServer) (out : Except Str Nat)
    (heq : createTree fs server baseTid files = (s2, out)) :
    s2.refs = server.refs
    ∧ s2.commits = server.commits
    ∧ (∀ tid, out = .ok tid →
        ∃ (base : TreeEntries) (items : TreeEntries),
          lookupN server.trees baseTid = some base
          ∧ lookupN s2.trees tid = some (items.reverse ++ base)
          ∧ items.map (fun p => p.1) = files.map (fun f => f.path)
          ∧ List.Forall₂
              (fun (f : FileSpec) (pr : Str × Nat) =>
                pr.1 = f.path ∧ lookupN s2.blobs pr.2 = some f.content)
              files items) := by
  simp only [createTree] at heq
  split at heq
  · rename_i s3 e hrec
    injection heq with h1 h2
    subst h1
    subst h2
    have hcb := createBlobs_spec fs files server 0 s3 _ hrec
    refine ⟨hcb.1, hcb.2.1, ?_⟩
    intro tid hok
    simp at hok
  · rename_i s3 items hrec
    have hcb := createBlobs_spec fs files server 0 s3 _ hrec
    by_cases hfail : fs.failCreateTree = true
    · rw [if_pos hfail] at heq
      injection heq with h1 h2
      subst h1
      subst h2
      refine ⟨hcb.1, hcb.2.1, ?_⟩
      intro tid hok
      simp at hok
    · rw [if_neg hfail] at heq
      split at heq
      · rename_i hbase
        injection heq with h1 h2
        subst h1
        subst h2
        refine ⟨hcb.1, hcb.2.1, ?_⟩
        intro tid hok
        simp at hok
      · rename_i base hbase
        injection heq with h1 h2
        subst h1
        subst h2
        refine ⟨by simpa using hcb.1, by simpa using hcb.2.1, ?_⟩
        intro tid hok
        injection hok with h
        subst h
        refine ⟨base, items, ?_, ?_, ?_, ?_⟩
        · rw [← hcb.2.2.1]
          exact hbase
        · show lookupN ((s3.nextId, items.foldl (fun t pr => pr :: t) base) :: s3.trees)
            s3.nextId = some (items.reverse ++ base)
          rw [foldl_prepend]
          exact lookupN_cons_self _ _ _
        · exact forall2_keys s3.blobs files items (hcb.2.2.2.2.2 items rfl)
        · exact hcb.2.2.2.2.2 items rfl

/-- C1: `commitBatch` is atomic.  Either some step fails, the call returns
that error, and the branch refs are exactly as before the call; or the
call succeeds and the branch ref now points at a single new commit whose
parent is the previous head, whose message is the given message, whose
tree holds every given file's content at its path, and which maps every
path outside the given files exactly as the previous head's tree did.
Other refs are untouched in both cases. -/
theorem C1_commitBatch_atomic (fs : FailSpec) (branchCache : Option Str)
    (server : GitServer) (files : List FileSpec) (message : Str)
    (hnd : (files.map (fun f => f.path)).Nodup)
    (final : GitServer) (out : Except Str Nat)
    (heq : commitBatch fs branchCache server files message = (final, out)) :
    ((∃ e, out = .error e) → final.refs = server.refs)
    ∧ (∀ sha, out = .ok sha →
        lookupS final.refs (getDefaultBranch branchCache) = some sha
        ∧ (∀ b, b ≠ getDefaultBranch branchCache →
            lookupS final.refs b = lookupS server.refs b)
        ∧ ∃ (oldHead : Nat) (oldC : CommitObj) (c : CommitObj),
            lookupS server.refs (getDefaultBranch branchCache) = some oldHead
            ∧ lookupN server.commits oldHead = some oldC
            ∧ lookupN final.commits sha = some c
            ∧ c.parents = [oldHead]
            ∧ c.message = message
            ∧ (∀ f ∈ files, contentAt final c.tree f.path = some f.content)
            ∧ (∀ p, p ∉ files.map (fun f => f.path) →
                treeEntryAt final c.tree p = treeEntryAt server oldC.tree p)) := by
  simp only [commitBatch] at heq
  split at heq
  · rename_i e hstep1
    injection heq with h1 h2
    subst h1
    subst h2
    exact ⟨fun _ => rfl, fun sha hok => by simp at hok⟩
  · rename_i latest hstep1
    have hlatest : lookupS server.refs (getDefaultBranch branchCache) = some latest := by
      simp only [getLatestCommitSha] at hstep1
      split_ifs at hstep1
      split at hstep1
      · rename_i sha0 hs
        injection hstep1 with h
        subst h
        exact hs
      · simp at hstep1
    split at heq
    · rename_i e hstep2
      injection heq with h1 h2
      subst h1
      subst h2
      exact ⟨fun _ => rfl, fun sha hok => by simp at hok⟩
    · rename_i baseTid hstep2
      obtain ⟨oldC, hOldC, hbasetid⟩ :
          ∃ oldC, lookupN server.commits latest = some oldC ∧ oldC.tree = baseTid := by
        simp only [getCommitTreeSha] at hstep2
        split_ifs at hstep2
        split at hstep2
        · rename_i c0 hc0
          injection hstep2 with h
          subst h
          exact ⟨c0, hc0, rfl⟩
        · simp at hstep2
      split at heq
      · rename_i s2t e hct
        injection heq with h1 h2
        subst h1
        subst h2
        have hts := createTree_spec fs server baseTid files s2t _ hct
        exact ⟨fun _ => hts.1, fun sha hok => by simp at hok⟩
      · rename_i s2t newTree hct
        have hts := createTree_spec fs server baseTid files s2t _ hct
        obtain ⟨base, items, hbase, htree, hkeys, hf2⟩ := hts.2.2 newTree rfl
        split at heq
        · rename_i s3 e hcc
          simp only [createCommit] at hcc
          split_ifs at hcc with hccf
          · injection hcc with h1 h2
            subst h1
            injection heq with h1 h2
            subst h1
            subst h2
            exact ⟨fun _ => hts.1, fun sha hok => by simp at hok⟩
          · injection hcc with h1 h2
            simp at h2
        · rename_i s3 newCommit hcc
          simp only [createCommit] at hcc
          split_ifs at hcc with hccf
          · injection hcc with h1 h2
            simp at h2
          · injection hcc with h1 h2
            injection h2 with h2
            subst h1
            subst h2
            split at heq
            · rename_i s4 e hur
              simp only [updateRef] at hur
              split_ifs at hur with hurf
              · injection hur with h1 h2
                subst h1
                injection heq with h1 h2
                subst h1
                subst h2
                refine ⟨fun _ => ?_, fun sha hok => by simp at hok⟩
                show s2t.refs = server.refs
                exact hts.1
              · split at hur
                · injection hur with h1 h2
                  subst h1
                  injection heq with h1 h2
                  subst h1
                  subst h2
                  refine ⟨fun _ => ?_, fun sha hok => by simp at hok⟩
                  show s2t.refs = server.refs
                  exact hts.1
                · injection hur with h1 h2
                  simp at h2
            · rename_i s4 u hur
              simp only [updateRef] at hur
              split_ifs at hur with hurf
              · injection hur with h1 h2
                simp at h2
              · split at hur
                · injection hur with h1 h2
                  simp at h2
                · rename_i prevSha hprev
                  injection hur with h1 h2
                  subst h1
                  injection heq with h1 h2
                  subst h1
                  subst h2
                  constructor
                  · intro he
                    obtain ⟨e, he⟩ := he
                    simp at he
                  · intro sha hok
                    injection hok with h
                    subst h
                    refine ⟨?_, ?_, latest, oldC,
                      ⟨newTree, [latest], message⟩, hlatest, hOldC, ?_, rfl, rfl, ?_, ?_⟩
                    · exact lookupS_cons_self _ _ _
                    · intro b hb
                      show lookupS ((getDefaultBranch branchCache, s2t.nextId)
                          :: s2t.refs) b = lookupS server.refs b
                      rw [lookupS_cons_ne _ b _ _ (fun hc => hb hc.symm)]
                      rw [hts.1]
                    · show lookupN ((s2t.nextId, ⟨newTree, [latest], message⟩)
                        :: s2t.commits) s2t.nextId
                        = some ⟨newTree, [latest], message⟩
                      exact lookupN_cons_self _ _ _
                    · intro f hf
                      have hndkeys : (items.map (fun p => p.1)).Nodup := by
                        rw [hkeys]
                        exact hnd
                      obtain ⟨b, hlook, hblob⟩ :=
                        lookupS_forall2 s2t.blobs files items hf2 hnd f hf
                      show contentAt
                        { s2t with
                          commits := (s2t.nextId, ⟨newTree, [latest], message⟩) :: s2t.commits
                          nextId := s2t.nextId + 1
                          refs := (getDefaultBranch branchCache, s2t.nextId) :: s2t.refs }
                        newTree f.path = some f.content
                      unfold contentAt treeEntryAt
                      show ((lookupN s2t.trees newTree).bind
                        (fun t => lookupS t f.path)).bind (fun b => lookupN s2t.blobs b)
                        = some f.content
                      rw [htree]
                      simp only [Option.some_bind]
                      rw [lookupS_append, lookupS_reverse items hndkeys f.path, hlook]
                      simpa using hblob
                    · intro p hp
                      show treeEntryAt
                        { s2t with
                          commits := (s2t.nextId, ⟨newTree, [latest], message⟩) :: s2t.commits
                          nextId := s2t.nextId + 1
                          refs := (getDefaultBranch branchCache, s2t.nextId) :: s2t.refs }
                        newTree p = treeEntryAt server oldC.tree p
                      unfold treeEntryAt
                      show (lookupN s2t.trees newTree).bind (fun t => lookupS t p)
                        = (lookupN server.trees oldC.tree).bind (fun t => lookupS t p)
                      rw [htree, hbasetid, hbase]
                      simp only [Option.some_bind]
                      rw [lookupS_append]
                      rw [lookupS_not_mem items.reverse p (by
                        rw [List.map_reverse, List.mem_reverse, hkeys]
                        exact hp)]

/-- C1 witness: a healthy two-file commit on a one-commit repository
advances `main` to the new commit id. -/
theorem C1_commitBatch_atomic_witness :
    ([(⟨str "a.txt", str "A"⟩ : FileSpec), ⟨str "b.txt", str "B"⟩].map
        (fun f => f.path)).Nodup
    ∧ lookupS (GitServer.mk [(str "main", 5), (str "main", 0)]
        [(5, ⟨4, [0], str "msg"⟩), (0, ⟨1, [], str "init"⟩)]
        [(4, [(str "b.txt", 3), (str "a.txt", 2)]), (1, [])]
        [(3, str "B"), (2, str "A")] 6).refs (getDefaultBranch none) = some 5 :=
  ⟨by decide,
   ((C1_commitBatch_atomic (FailSpec.mk false false (fun _ => false) false false false) none
      (GitServer.mk [(str "main", 0)] [(0, ⟨1, [], str "init"⟩)] [(1, [])] [] 2)
      [⟨str "a.txt", str "A"⟩, ⟨str "b.txt", str "B"⟩] (str "msg") (by decide)
      (GitServer.mk [(str "main", 5), (str "main", 0)]
        [(5, ⟨4, [0], str "msg"⟩), (0, ⟨1, [], str "init"⟩)]
        [(4, [(str "b.txt", 3), (str "a.txt", 2)]), (1, [])]
        [(3, str "B"), (2, str "A")] 6) (Except.ok 5) rfl).2 5 rfl).1⟩

end CodeTrail

